import Mathlib

/-!
The weather-service repository: the forecast cache and the forecast handler

A shallow embedding of `internal/cache/cache.go` and `internal/handler/handlers.go`.

* Go pointers are `Ptr α := Option α`, with `none` for `nil`; dereferencing `nil`
  and indexing past the end of a slice are panics, modelled by `Except Panic`.
* `time.Time` values are wall-clock instants counted in nanoseconds (every time the
  cache compares went through `UTC()`, which drops the monotonic reading);
  a `time.Duration` is an `Int` number of nanoseconds, saturating at the int64 bounds.
* `time.Now()` is an input of the cache's `Get`; in the handler it is a read of the
  surrounding world, like every call to a collaborator.
* The handler's collaborators are the interfaces it is built from; each call on one is a
  transition of the world that returns its results. The handler's run yields the response
  written (or the panic raised) and the list of the calls made.
-/

namespace WeatherService

/-! ## Go runtime notions -/

/-- A Go pointer: `none` is `nil`. -/
abbrev Ptr (α : Type) := Option α

/-- The run-time panics the embedded code can raise. -/
inductive Panic where
  | indexOutOfRange
  | nilDereference
  deriving DecidableEq, Repr

/-- A `time.Time` instant: nanoseconds on the wall clock. -/
structure Time where
  nsec : Int
  deriving DecidableEq, Repr

namespace time

def Second : Int := 1000000000

def Hour : Int := 3600 * Second

/-- Smallest `time.Duration` (int64 minimum). -/
def minDuration : Int := -9223372036854775808

/-- Largest `time.Duration` (int64 maximum). -/
def maxDuration : Int := 9223372036854775807

/-- `t.Sub(u)`: the duration `t - u`, saturated to `minDuration`/`maxDuration`. -/
def Sub (t u : Time) : Int :=
  if t.nsec - u.nsec < minDuration then minDuration
  else if maxDuration < t.nsec - u.nsec then maxDuration
  else t.nsec - u.nsec

/-- `t.After(u)`. -/
def After (t u : Time) : Bool := decide (u.nsec < t.nsec)

/-- `t.AddDate(0, 0, days)` for a time in UTC, where every day has 86400 seconds. -/
def AddDays (t : Time) (days : Int) : Time := ⟨t.nsec + days * (24 * Hour)⟩

end time

/-! ## api/v1 -/

namespace v1

/-- The type `v1.Detail`. -/
structure Detail where
  StartTime : Time
  EndTime : Time
  Description : String
  deriving DecidableEq, Repr

/-- The type `v1.Forecast`; `Detail` is a slice of pointers. -/
structure Forecast where
  Name : String
  Detail : List (Ptr Detail)
  deriving DecidableEq, Repr

/-- The type `v1.ListWeatherResponse`. -/
structure ListWeatherResponse where
  Forecast : List (Ptr Forecast)
  deriving DecidableEq, Repr

end v1

/-! ## internal/cache -/

namespace cache

def defaultExpiry : Int := 5 * time.Hour

/-- The type `cache.Store`: the map from keys to forecast pointers. -/
structure Store where
  data : String → Option (Ptr v1.Forecast)

/-- The constructor `NewStore`: an empty map. -/
def NewStore : Store := ⟨fun _ => none⟩

/-- The method `Store.Set`: `c.data[k] = v`. -/
def Store.Set (c : Store) (k : String) (v : Ptr v1.Forecast) : Store :=
  ⟨fun j => if j = k then some v else c.data j⟩

/-- The expression `entry.Detail[0].StartTime` of `Store.Get`, with its three ways to panic. -/
def firstStartTime (entry : Ptr v1.Forecast) : Except Panic Time :=
  match entry with
  | none => .error .nilDereference
  | some f =>
    match f.Detail with
    | [] => .error .indexOutOfRange
    | none :: _ => .error .nilDereference
    | some d :: _ => .ok d.StartTime

/-- The method `Store.Get`, at the time `now` read by `time.Now()`. -/
def Store.Get (c : Store) (k : String) (now : Time) : Except Panic (Ptr v1.Forecast × Bool) :=
  match c.data k with
  | none => .ok (none, false)
  | some entry =>
    match firstStartTime entry with
    | .error p => .error p
    | .ok start =>
      if defaultExpiry < time.Sub start now then .ok (none, false)
      else .ok (entry, true)

end cache

/-! ## internal/pkg/openstreetmap and internal/pkg/weathergov: the data exchanged -/

/-- A Go `error` value: `none` is `nil`, `some msg` an error. -/
abbrev GoError := Option String

namespace openstreetmap

/-- The type `openstreetmap.GetOptions`. -/
structure GetOptions where
  Query : String
  Format : String
  deriving DecidableEq, Repr

/-- The type `openstreetmap.Place`. -/
structure Place where
  ID : Int
  Lat : String
  Lon : String
  DisplayName : String
  deriving DecidableEq, Repr

end openstreetmap

namespace weathergov

/-- The type `weathergov.Coordinates`. -/
structure Coordinates where
  Lat : String
  Lon : String
  deriving DecidableEq, Repr

/-- The type `weathergov.PointsProperties`. -/
structure PointsProperties where
  Forecast : String
  deriving DecidableEq, Repr

/-- The type `weathergov.Points`. -/
structure Points where
  ID : String
  Properties : PointsProperties
  deriving DecidableEq, Repr

/-- The type `weathergov.Periods`. -/
structure Periods where
  Name : String
  StartTime : Time
  EndTime : Time
  IsDaytime : Bool
  DetailedForecast : String
  deriving DecidableEq, Repr

/-- The type `weathergov.ForecastProperties`. -/
structure ForecastProperties where
  Periods : List Periods
  deriving DecidableEq, Repr

/-- The type `weathergov.Forecast`. -/
structure Forecast where
  Properties : ForecastProperties
  deriving DecidableEq, Repr

end weathergov

/-! ## internal/handler -/

namespace strings

/-- Pieces of a character list between occurrences of `sep`. -/
def splitChars (sep : Char) : List Char → List (List Char)
  | [] => [[]]
  | c :: cs =>
    if c = sep then [] :: splitChars sep cs
    else
      match splitChars sep cs with
      | [] => [[c]]
      | piece :: pieces => (c :: piece) :: pieces

/-- The function `strings.Split(s, sep)` for a separator of one character. -/
def Split (s : String) (sep : Char) : List String :=
  (splitChars sep s.data).map String.mk

end strings

namespace handler

def defaultFormat : String := "json"

def defaultCountry : String := "USA"

/-- One call the handler makes on a collaborator (logging apart); a cache lookup is
recorded with the answer it got. -/
inductive Call where
  | cacheGet (k : String) (v : Ptr v1.Forecast) (found : Bool)
  | cacheSet (k : String) (v : Ptr v1.Forecast)
  | GetPlace (opts : openstreetmap.GetOptions)
  | GetPoints (coord : weathergov.Coordinates)
  | GetForecast (forecastURL : String)
  deriving DecidableEq, Repr

/-- The type `GetForecastHandler`: its collaborators, each a transition on the state `W`
of the world outside the handler (network, cache contents, clock).  `cache_Get` and
`cache_Set` are the `Cache` interface, `openStreetMapAPI_GetPlace` the `OpenStreetMapAPI`
interface, `weatherGovAPI_GetPoints` and `weatherGovAPI_GetForecast` the `WeatherGovAPI`
interface; `time_Now` is `time.Now().UTC()` and `cases_Title` is
`cases.Title(language.English).String`. -/
structure GetForecastHandler (W : Type) where
  openStreetMapAPI_GetPlace :
    openstreetmap.GetOptions → W → (List (Ptr openstreetmap.Place) × GoError) × W
  weatherGovAPI_GetPoints :
    weathergov.Coordinates → W → (Ptr weathergov.Points × GoError) × W
  weatherGovAPI_GetForecast : String → W → (Ptr weathergov.Forecast × GoError) × W
  cache_Get : String → W → (Ptr v1.Forecast × Bool) × W
  cache_Set : String → Ptr v1.Forecast → W → W
  time_Now : W → Time × W
  cases_Title : String → String

/-- The world together with the calls made so far, oldest first. -/
structure St (W : Type) where
  world : W
  calls : List Call
  deriving DecidableEq, Repr

/-- The JSON body written by `c.JSON`: a `gin.H` with one `message`, or the list response. -/
inductive Body where
  | message (m : String)
  | weather (r : v1.ListWeatherResponse)
  deriving DecidableEq, Repr

/-- What `c.JSON(status, body)` writes. -/
structure Response where
  status : Nat
  body : Body
  deriving DecidableEq, Repr

/-- The request, as far as the handler reads it: the first value of the query parameter
`city`, when there is one. -/
structure Request where
  city : Option String
  deriving DecidableEq, Repr

/-- The method `c.DefaultQuery("city", defaultValue)`. -/
def DefaultQuery (req : Request) (defaultValue : String) : String :=
  match req.city with
  | some v => v
  | none => defaultValue

/-- How one pass through the body of the loop over the cities ends: `continue` or the end
of the body with the new value of `forecasts`, a response followed by `return`, or a panic. -/
inductive Flow where
  | next (forecasts : List (Ptr v1.Forecast))
  | ret (r : Response)
  | panicked (p : Panic)
  deriving DecidableEq, Repr

/-- The inner loop of `GetForecast` over `forecastResp.Properties.Periods`; `detail` is
`forecast.Detail` so far. -/
def periodLoop (twoDaysLater : Time) :
    List weathergov.Periods → List (Ptr v1.Detail) → List (Ptr v1.Detail)
  | [], detail => detail
  | period :: rest, detail =>
    if period.IsDaytime && time.After period.StartTime twoDaysLater then detail
    else
      periodLoop twoDaysLater rest
        (detail ++ [some ⟨period.StartTime, period.EndTime, period.DetailedForecast⟩])

/-- The body of the loop `for _, city := range cities` of `GetForecast`. -/
def GetForecastHandler.cityIteration {W : Type} (h : GetForecastHandler W) (city : String)
    (forecasts : List (Ptr v1.Forecast)) (s : St W) : Flow × St W :=
  let got := h.cache_Get city s.world
  let s1 : St W := ⟨got.2, s.calls ++ [Call.cacheGet city got.1.1 got.1.2]⟩
  if got.1.2 then (Flow.next (forecasts ++ [got.1.1]), s1)
  else
    let opts : openstreetmap.GetOptions := ⟨city ++ "," ++ defaultCountry, defaultFormat⟩
    let pl := h.openStreetMapAPI_GetPlace opts s1.world
    let s2 : St W := ⟨pl.2, s1.calls ++ [Call.GetPlace opts]⟩
    match pl.1.2 with
    | some _ => (Flow.ret ⟨500, Body.message "Unable to retrieve weather forecast"⟩, s2)
    | none =>
      match pl.1.1 with
      | [] => (Flow.next forecasts, s2)
      | none :: _ => (Flow.panicked Panic.nilDereference, s2)
      | some place :: _ =>
        let coord : weathergov.Coordinates := ⟨place.Lat, place.Lon⟩
        let pt := h.weatherGovAPI_GetPoints coord s2.world
        let s3 : St W := ⟨pt.2, s2.calls ++ [Call.GetPoints coord]⟩
        match pt.1.1 with
        | none => (Flow.panicked Panic.nilDereference, s3)
        | some points =>
          let fr := h.weatherGovAPI_GetForecast points.Properties.Forecast s3.world
          let s4 : St W := ⟨fr.2, s3.calls ++ [Call.GetForecast points.Properties.Forecast]⟩
          match fr.1.2 with
          | some _ => (Flow.next forecasts, s4)
          | none =>
            let nw := h.time_Now s4.world
            let twoDaysLater := time.AddDays nw.1 2
            match fr.1.1 with
            | none => (Flow.panicked Panic.nilDereference, ⟨nw.2, s4.calls⟩)
            | some forecastResp =>
              let forecast : v1.Forecast :=
                ⟨h.cases_Title city, periodLoop twoDaysLater forecastResp.Properties.Periods []⟩
              (Flow.next (forecasts ++ [some forecast]),
                ⟨h.cache_Set city (some forecast) nw.2,
                 s4.calls ++ [Call.cacheSet city (some forecast)]⟩)

/-- The loop `for _, city := range cities` of `GetForecast` and the response after it. -/
def GetForecastHandler.cityLoop {W : Type} (h : GetForecastHandler W) :
    List String → List (Ptr v1.Forecast) → St W → Except Panic Response × St W
  | [], forecasts, s => (.ok ⟨200, Body.weather ⟨forecasts⟩⟩, s)
  | city :: rest, forecasts, s =>
    match h.cityIteration city forecasts s with
    | (Flow.next forecasts', s') => cityLoop h rest forecasts' s'
    | (Flow.ret r, s') => (.ok r, s')
    | (Flow.panicked p, s') => (.error p, s')

/-- The method `GetForecastHandler.GetForecast`, run in world `w`: the response written
(or the panic raised), the world afterwards and the calls made. -/
def GetForecastHandler.GetForecast {W : Type} (h : GetForecastHandler W) (req : Request)
    (w : W) : Except Panic Response × St W :=
  let citiesStr := DefaultQuery req ""
  if citiesStr = "" then
    (.ok ⟨400, Body.message "Query param 'city' missing."⟩, ⟨w, []⟩)
  else
    h.cityLoop (strings.Split citiesStr ',') [] ⟨w, []⟩

/-- The state in which the loop over the cities stands after the cities `done`, when
every one of their iterations ended with `continue` or ran to the end of the body. -/
def GetForecastHandler.stateAfter {W : Type} (h : GetForecastHandler W) :
    List String → List (Ptr v1.Forecast) → St W → Option (List (Ptr v1.Forecast) × St W)
  | [], forecasts, s => some (forecasts, s)
  | city :: rest, forecasts, s =>
    match h.cityIteration city forecasts s with
    | (Flow.next forecasts', s') => stateAfter h rest forecasts' s'
    | _ => none

/-- City `city` degrades in world `w`: the cache misses and geocoding returns no error,
and either there is no candidate, or the first candidate is there, the point lookup
succeeds for it and the forecast fetch returns an error. -/
def GetForecastHandler.degrades {W : Type} (h : GetForecastHandler W) (city : String)
    (w : W) : Bool :=
  let got := h.cache_Get city w
  let pl := h.openStreetMapAPI_GetPlace ⟨city ++ "," ++ defaultCountry, defaultFormat⟩ got.2
  !got.1.2 && pl.1.2.isNone &&
    match pl.1.1 with
    | [] => true
    | none :: _ => false
    | some place :: _ =>
      let pt := h.weatherGovAPI_GetPoints ⟨place.Lat, place.Lon⟩ pl.2
      match pt.1 with
      | (some points, none) =>
        (h.weatherGovAPI_GetForecast points.Properties.Forecast pt.2).1.2.isSome
      | _ => false

/-- Every city of the list degrades, each in the world the loop has reached at its turn. -/
def GetForecastHandler.allDegrade {W : Type} (h : GetForecastHandler W) :
    List String → St W → Bool
  | [], _ => true
  | city :: rest, s =>
    h.degrades city s.world && allDegrade h rest (h.cityIteration city [] s).2

/-- Following the spec's words (the filtering step of the per-city algorithm): the periods
that come before the first one that is daytime and starts after `now` + 2 days, each
turned into a detail. -/
def spec_details (now : Time) (periods : List weathergov.Periods) : List (Ptr v1.Detail) :=
  (periods.takeWhile (fun p =>
      !(p.IsDaytime && decide (now.nsec + 2 * (24 * time.Hour) < p.StartTime.nsec)))).map
    (fun p => some ⟨p.StartTime, p.EndTime, p.DetailedForecast⟩)

/-- Following the spec's words (the list response and the per-city algorithm): what the
city contributes to the response in world `w`. A city served from the cache contributes
the cached forecast; a city fully resolved (cache miss, geocoding without error and with a
first candidate, a point reference, a forecast fetched without error) contributes the
forecast named by its title-cased name with the filtered details; any other city
contributes nothing. -/
def GetForecastHandler.spec_contribution {W : Type} (h : GetForecastHandler W)
    (city : String) (w : W) : Option (Ptr v1.Forecast) :=
  let got := h.cache_Get city w
  if got.1.2 then some got.1.1
  else
    let pl := h.openStreetMapAPI_GetPlace ⟨city ++ "," ++ defaultCountry, defaultFormat⟩ got.2
    match pl.1 with
    | (some place :: _, none) =>
      let pt := h.weatherGovAPI_GetPoints ⟨place.Lat, place.Lon⟩ pl.2
      match pt.1.1 with
      | none => none
      | some points =>
        let fr := h.weatherGovAPI_GetForecast points.Properties.Forecast pt.2
        match fr.1 with
        | (some forecastResp, none) =>
          some (some ⟨h.cases_Title city,
            spec_details (h.time_Now fr.2).1 forecastResp.Properties.Periods⟩)
        | _ => none
    | _ => none

end handler

/-! ## Sample data -/

/-- One forecast whose only detail starts at instant `start`. -/
def sampleForecast (start : Int) : v1.Forecast :=
  ⟨"Boston", [some ⟨⟨start⟩, ⟨start + time.Hour⟩, "Sunny"⟩]⟩

/-- The forecast `sampleHandler` assembles for `boston`. -/
def bostonForecast : v1.Forecast :=
  ⟨"Boston", [some ⟨⟨0⟩, ⟨12 * time.Hour⟩, "Sunny"⟩,
              some ⟨⟨12 * time.Hour⟩, ⟨24 * time.Hour⟩, "Clear"⟩]⟩

/-- The state of the loop of `sampleHandler` after the city `boston`, from an empty cache. -/
def afterBoston : handler.St (List (String × Ptr v1.Forecast)) :=
  ⟨[("boston", some bostonForecast)],
   [handler.Call.cacheGet "boston" none false,
    handler.Call.GetPlace ⟨"boston,USA", "json"⟩,
    handler.Call.GetPoints ⟨"40.7", "-74.0"⟩,
    handler.Call.GetForecast "gridpoints/OKX/33,35/forecast",
    handler.Call.cacheSet "boston" (some bostonForecast)]⟩

/-- Four periods: the day and the night of day 0, then the day and the night of day 3. -/
def samplePeriods : List weathergov.Periods :=
  [⟨"Today", ⟨0⟩, ⟨12 * time.Hour⟩, true, "Sunny"⟩,
   ⟨"Tonight", ⟨12 * time.Hour⟩, ⟨24 * time.Hour⟩, false, "Clear"⟩,
   ⟨"Day 3", ⟨72 * time.Hour⟩, ⟨84 * time.Hour⟩, true, "Rain"⟩,
   ⟨"Night 3", ⟨84 * time.Hour⟩, ⟨96 * time.Hour⟩, false, "Showers"⟩]

/-- Upper case for the first letter of every word, lower case for the others. -/
def titleChars : Bool → List Char → List Char
  | _, [] => []
  | start, c :: cs => (if start then c.toUpper else c.toLower) :: titleChars (c = ' ') cs

/-- A handler in a small world: the world is the content of the cache, as a list of
bindings with the newest first; the clock stands at 0; the upstream answers depend on
the city alone: geocoding fails for `down`, finds nothing for `atlantis`; the point lookup
fails for `nopoint`; the forecast fetch fails for `noforecast`. -/
def sampleHandler : handler.GetForecastHandler (List (String × Ptr v1.Forecast)) where
  cache_Get := fun k w =>
    match w.lookup k with
    | some f => ((f, true), w)
    | none => ((none, false), w)
  cache_Set := fun k v w => (k, v) :: w
  openStreetMapAPI_GetPlace := fun opts w =>
    if opts.Query = "down,USA" then (([], some "timeout"), w)
    else if opts.Query = "atlantis,USA" then (([], none), w)
    else if opts.Query = "nopoint,USA" then (([some ⟨1, "0", "0", opts.Query⟩], none), w)
    else if opts.Query = "noforecast,USA" then (([some ⟨2, "1", "1", opts.Query⟩], none), w)
    else (([some ⟨3, "40.7", "-74.0", opts.Query⟩], none), w)
  weatherGovAPI_GetPoints := fun coord w =>
    if coord.Lat = "0" then ((none, some "points failed"), w)
    else if coord.Lat = "1" then ((some ⟨"id", ⟨"bad"⟩⟩, none), w)
    else ((some ⟨"id", ⟨"gridpoints/OKX/33,35/forecast"⟩⟩, none), w)
  weatherGovAPI_GetForecast := fun forecastURL w =>
    if forecastURL = "bad" then ((none, some "forecast failed"), w)
    else ((some ⟨⟨samplePeriods⟩⟩, none), w)
  time_Now := fun w => (⟨0⟩, w)
  cases_Title := fun city => String.mk (titleChars true city.data)


/-! ## Facts about durations and the store -/

theorem Sub_exceeds_expiry_iff (t u : Time) :
    cache.defaultExpiry < time.Sub t u ↔ 18000000000000 < t.nsec - u.nsec := by
  unfold time.Sub cache.defaultExpiry time.Hour time.Second time.minDuration time.maxDuration
  split
  · constructor <;> intro h <;> omega
  · split
    · constructor <;> intro h <;> omega
    · constructor <;> intro h <;> omega

theorem defaultExpiry_eq : cache.defaultExpiry = 18000000000000 := by decide

theorem Set_data_same (c : cache.Store) (k : String) (v : Ptr v1.Forecast) :
    (c.Set k v).data k = some v := by
  simp [cache.Store.Set]

theorem Set_then_Get_hit_iff (c : cache.Store) (k : String) (now : Time)
    (f : v1.Forecast) (d : v1.Detail) (ds : List (Ptr v1.Detail))
    (hd : f.Detail = some d :: ds) :
    (c.Set k (some f)).Get k now = .ok (some f, true)
      ↔ d.StartTime.nsec - now.nsec ≤ cache.defaultExpiry := by
  have hE := defaultExpiry_eq
  by_cases h : cache.defaultExpiry < time.Sub d.StartTime now
  · have h2 := (Sub_exceeds_expiry_iff _ _).1 h
    have hg : (c.Set k (some f)).Get k now = .ok (none, false) := by
      simp [cache.Store.Get, Set_data_same, cache.firstStartTime, hd, h]
    rw [hg]
    constructor
    · intro hc; simp at hc
    · intro hc; omega
  · have h2 : ¬ (18000000000000 < d.StartTime.nsec - now.nsec) := fun hc =>
      h ((Sub_exceeds_expiry_iff _ _).2 hc)
    have hg : (c.Set k (some f)).Get k now = .ok (some f, true) := by
      simp [cache.Store.Get, Set_data_same, cache.firstStartTime, hd, h]
    rw [hg]
    constructor
    · intro _; omega
    · intro _; rfl

/-! ## Facts about the loop over the cities -/

open handler

theorem cityLoop_append_of_stateAfter {W : Type} (h : GetForecastHandler W) :
    ∀ (before rest : List String) (fs : List (Ptr v1.Forecast)) (s : St W)
      (fs1 : List (Ptr v1.Forecast)) (s1 : St W),
      h.stateAfter before fs s = some (fs1, s1) →
      h.cityLoop (before ++ rest) fs s = h.cityLoop rest fs1 s1 := by
  intro before
  induction before with
  | nil =>
    intro rest fs s fs1 s1 hst
    simp only [GetForecastHandler.stateAfter, Option.some.injEq, Prod.mk.injEq] at hst
    obtain ⟨rfl, rfl⟩ := hst
    rfl
  | cons c cs ih =>
    intro rest fs s fs1 s1 hst
    simp only [GetForecastHandler.stateAfter] at hst
    simp only [List.cons_append, GetForecastHandler.cityLoop]
    rcases hit : h.cityIteration c fs s with ⟨fl, s0⟩
    rw [hit] at hst
    cases fl with
    | next f => exact ih _ _ _ _ _ hst
    | ret r => simp at hst
    | panicked p => simp at hst

theorem cityLoop_of_stateAfter {W : Type} (h : GetForecastHandler W)
    (cs : List String) (fs : List (Ptr v1.Forecast)) (s : St W)
    (fs1 : List (Ptr v1.Forecast)) (s1 : St W)
    (hst : h.stateAfter cs fs s = some (fs1, s1)) :
    h.cityLoop cs fs s = (.ok ⟨200, Body.weather ⟨fs1⟩⟩, s1) := by
  have := cityLoop_append_of_stateAfter h cs [] fs s fs1 s1 hst
  rw [List.append_nil] at this
  rw [this]
  rfl

theorem GetForecast_eq_cityLoop {W : Type} (h : GetForecastHandler W) (req : Request) (w : W)
    (citiesStr : String) (hq : req.city = some citiesStr) (hne : citiesStr ≠ "") :
    h.GetForecast req w = h.cityLoop (strings.Split citiesStr ',') [] ⟨w, []⟩ := by
  simp [GetForecastHandler.GetForecast, DefaultQuery, hq, hne]

theorem GetForecast_at_city {W : Type} (h : GetForecastHandler W) (req : Request) (w : W)
    (citiesStr : String) (before after : List String) (city : String)
    (fs : List (Ptr v1.Forecast)) (s : St W)
    (hq : req.city = some citiesStr) (hne : citiesStr ≠ "")
    (hsplit : strings.Split citiesStr ',' = before ++ city :: after)
    (hreach : h.stateAfter before [] ⟨w, []⟩ = some (fs, s)) :
    h.GetForecast req w = h.cityLoop (city :: after) fs s := by
  rw [GetForecast_eq_cityLoop h req w citiesStr hq hne, hsplit]
  exact cityLoop_append_of_stateAfter h before (city :: after) [] ⟨w, []⟩ fs s hreach

/-- The five ways one iteration can end, with the calls it adds: a cache hit, a degraded
city, a freshly built forecast, the response 500, a panic. -/
theorem cityIteration_cases {W : Type} (h : GetForecastHandler W) (city : String)
    (fs : List (Ptr v1.Forecast)) (s : St W) :
    ∃ added, (h.cityIteration city fs s).2.calls = s.calls ++ added ∧
      (((h.cityIteration city fs s).1
            = Flow.next (fs ++ [(h.cache_Get city s.world).1.1]) ∧
          added = [Call.cacheGet city (h.cache_Get city s.world).1.1 true]) ∨
       ((h.cityIteration city fs s).1 = Flow.next fs ∧
          Call.cacheGet city (h.cache_Get city s.world).1.1 false ∈ added ∧
          ∀ k v, Call.cacheSet k v ∉ added) ∨
       (∃ fc, (h.cityIteration city fs s).1 = Flow.next (fs ++ [some fc]) ∧
          fc.Name = h.cases_Title city ∧ Call.cacheSet city (some fc) ∈ added) ∨
       (∃ r, (h.cityIteration city fs s).1 = Flow.ret r ∧ r.status = 500) ∨
       (∃ p, (h.cityIteration city fs s).1 = Flow.panicked p)) := by
  unfold GetForecastHandler.cityIteration
  simp only []
  split
  · rename_i hhit
    exact ⟨[Call.cacheGet city (h.cache_Get city s.world).1.1 true], by rw [hhit],
      Or.inl ⟨rfl, rfl⟩⟩
  · rename_i hmiss
    have hmiss : (h.cache_Get city s.world).1.2 = false := by simpa using hmiss
    rw [hmiss]
    split
    · exact ⟨_, by simp only [List.append_assoc]; rfl,
        Or.inr (Or.inr (Or.inr (Or.inl ⟨_, rfl, rfl⟩)))⟩
    · split
      · exact ⟨_, by simp only [List.append_assoc]; rfl,
          Or.inr (Or.inl ⟨rfl, by simp, by simp⟩)⟩
      · exact ⟨_, by simp only [List.append_assoc]; rfl,
          Or.inr (Or.inr (Or.inr (Or.inr ⟨_, rfl⟩)))⟩
      · split
        · exact ⟨_, by simp only [List.append_assoc]; rfl,
            Or.inr (Or.inr (Or.inr (Or.inr ⟨_, rfl⟩)))⟩
        · split
          · exact ⟨_, by simp only [List.append_assoc]; rfl,
              Or.inr (Or.inl ⟨rfl, by simp, by simp⟩)⟩
          · split
            · exact ⟨_, by simp only [List.append_assoc]; rfl,
                Or.inr (Or.inr (Or.inr (Or.inr ⟨_, rfl⟩)))⟩
            · exact ⟨_, by simp only [List.append_assoc]; rfl,
                Or.inr (Or.inr (Or.inl ⟨_, rfl, rfl, by simp⟩))⟩

theorem cityLoop_calls_extend {W : Type} (h : GetForecastHandler W) :
    ∀ (cs : List String) (fs : List (Ptr v1.Forecast)) (s : St W),
      ∃ added, (h.cityLoop cs fs s).2.calls = s.calls ++ added := by
  intro cs
  induction cs with
  | nil => intro fs s; exact ⟨[], by simp [GetForecastHandler.cityLoop]⟩
  | cons c cs ih =>
    intro fs s
    obtain ⟨a1, ha1, -⟩ := cityIteration_cases h c fs s
    simp only [GetForecastHandler.cityLoop]
    rcases hit : h.cityIteration c fs s with ⟨fl, s1⟩
    rw [hit] at ha1
    cases fl with
    | next f =>
      obtain ⟨a2, ha2⟩ := ih f s1
      exact ⟨a1 ++ a2, by simp only [ha2]; simp only at ha1; rw [ha1, List.append_assoc]⟩
    | ret r => exact ⟨a1, ha1⟩
    | panicked p => exact ⟨a1, ha1⟩

/-- The loop over the periods computes the details the spec describes. -/
theorem periodLoop_eq_spec_details (now : Time) :
    ∀ (periods : List weathergov.Periods) (detail : List (Ptr v1.Detail)),
      periodLoop (time.AddDays now 2) periods detail = detail ++ spec_details now periods := by
  intro periods
  induction periods with
  | nil => intro detail; simp [periodLoop, spec_details]
  | cons p ps ih =>
    intro detail
    cases hb : (p.IsDaytime && time.After p.StartTime (time.AddDays now 2)) with
    | true =>
      have hq : (!(p.IsDaytime &&
          decide (now.nsec + 2 * (24 * time.Hour) < p.StartTime.nsec))) = false := by
        have hb2 : (p.IsDaytime &&
          decide (now.nsec + 2 * (24 * time.Hour) < p.StartTime.nsec)) = true := hb
        rw [hb2]; rfl
      simp only [periodLoop, hb, spec_details, List.takeWhile_cons, hq, if_true,
        Bool.false_eq_true, if_false, List.map_nil, List.append_nil]
    | false =>
      have hq : (!(p.IsDaytime &&
          decide (now.nsec + 2 * (24 * time.Hour) < p.StartTime.nsec))) = true := by
        have hb2 : (p.IsDaytime &&
          decide (now.nsec + 2 * (24 * time.Hour) < p.StartTime.nsec)) = false := hb
        rw [hb2]; rfl
      have ih2 := ih (detail ++ [some ⟨p.StartTime, p.EndTime, p.DetailedForecast⟩])
      simp only [periodLoop, hb, ih2, Bool.false_eq_true, if_false]
      simp only [spec_details, List.takeWhile_cons, hq, if_true, List.map_cons,
        List.append_assoc, List.singleton_append]

/-- An iteration that ends with `continue` or at the end of the body has appended what
the spec says the city contributes, and nothing else. -/
theorem cityIteration_next_eq {W : Type} (h : GetForecastHandler W) (city : String)
    (fs fs1 : List (Ptr v1.Forecast)) (s s1 : St W)
    (hit : h.cityIteration city fs s = (Flow.next fs1, s1)) :
    fs1 = fs ++ (h.spec_contribution city s.world).toList := by
  unfold GetForecastHandler.cityIteration at hit
  unfold GetForecastHandler.spec_contribution
  rcases hg : h.cache_Get city s.world with ⟨⟨f0, found⟩, w1⟩
  rcases hp : h.openStreetMapAPI_GetPlace ⟨city ++ "," ++ defaultCountry, defaultFormat⟩ w1
    with ⟨⟨places, err⟩, w2⟩
  simp only [hg, hp] at hit ⊢
  cases found with
  | true =>
    simp only [if_true, Prod.mk.injEq, Flow.next.injEq] at hit
    simp [← hit.1]
  | false =>
    cases err with
    | some e => simp at hit
    | none =>
      cases places with
      | nil =>
        simp only [Bool.false_eq_true, if_false, Prod.mk.injEq, Flow.next.injEq] at hit
        simp [← hit.1]
      | cons p ps =>
        cases p with
        | none => simp at hit
        | some place =>
          rcases hpt : h.weatherGovAPI_GetPoints ⟨place.Lat, place.Lon⟩ w2
            with ⟨⟨pts, perr⟩, w3⟩
          simp only [hpt] at hit ⊢
          cases pts with
          | none => simp at hit
          | some points =>
            rcases hf : h.weatherGovAPI_GetForecast points.Properties.Forecast w3
              with ⟨⟨resp, ferr⟩, w4⟩
            simp only [hf] at hit ⊢
            cases ferr with
            | some e =>
              simp only [Bool.false_eq_true, if_false, Prod.mk.injEq, Flow.next.injEq] at hit
              simp [← hit.1]
            | none =>
              cases resp with
              | none => simp at hit
              | some forecastResp =>
                simp only [Bool.false_eq_true, if_false, Prod.mk.injEq, Flow.next.injEq] at hit
                rw [← hit.1]
                simp [periodLoop_eq_spec_details]

theorem picks_position_step {W : Type} (h : GetForecastHandler W) (c : String)
    (cs : List String) (fs fs0 : List (Ptr v1.Forecast)) (s s0 : St W)
    (o : Option (Ptr v1.Forecast)) (picks : List (String × Option (Ptr v1.Forecast)))
    (hit : h.cityIteration c fs s = (Flow.next fs0, s0))
    (ho : h.spec_contribution c s.world = o)
    (ih : ∀ before city after, cs = before ++ city :: after →
      ∃ fs1 s1, h.stateAfter before fs0 s0 = some (fs1, s1) ∧
        fs1 = fs0 ++ (picks.take before.length).filterMap Prod.snd ∧
        picks[before.length]? = some (city, h.spec_contribution city s1.world)) :
    ∀ before city after, c :: cs = before ++ city :: after →
      ∃ fs1 s1, h.stateAfter before fs s = some (fs1, s1) ∧
        fs1 = fs ++ (((c, o) :: picks).take before.length).filterMap Prod.snd ∧
        ((c, o) :: picks)[before.length]? = some (city, h.spec_contribution city s1.world) := by
  have hfs := cityIteration_next_eq h c fs fs0 s s0 hit
  rw [ho] at hfs
  intro before city after hsplit
  cases before with
  | nil =>
    simp only [List.nil_append, List.cons.injEq] at hsplit
    obtain ⟨rfl, -⟩ := hsplit
    exact ⟨fs, s, rfl, by simp, by simp [ho]⟩
  | cons b bs =>
    simp only [List.cons_append, List.cons.injEq] at hsplit
    obtain ⟨rfl, hcs⟩ := hsplit
    obtain ⟨fs1, s1, hst, hfs1, hget⟩ := ih bs city after hcs
    refine ⟨fs1, s1, ?_, ?_, ?_⟩
    · simp only [GetForecastHandler.stateAfter, hit]
      exact hst
    · rw [hfs1, hfs]
      cases o <;> simp
    · simpa using hget

/-- A response with status 200 lists the forecasts held before the loop followed by the
contributions of the cities, in order: nothing for a city whose lookup missed and that
degraded, the cached forecast for a hit, the forecast built and cached for a resolved one.
The contribution of each city is the one the spec gives it in the world the loop has
reached at its turn. -/
theorem cityLoop_ok_picks {W : Type} (h : GetForecastHandler W) :
    ∀ (cs : List String) (fs : List (Ptr v1.Forecast)) (s : St W) (r : Response) (s2 : St W),
      h.cityLoop cs fs s = (.ok r, s2) → r.status = 200 →
      ∃ picks : List (String × Option (Ptr v1.Forecast)),
        picks.map Prod.fst = cs ∧
        r.body = Body.weather ⟨fs ++ picks.filterMap Prod.snd⟩ ∧
        (∀ c, (c, none) ∈ picks → ∃ v, Call.cacheGet c v false ∈ s2.calls) ∧
        (∀ c f, (c, some f) ∈ picks →
          Call.cacheGet c f true ∈ s2.calls ∨
          (∃ fc, f = some fc ∧ fc.Name = h.cases_Title c ∧ Call.cacheSet c f ∈ s2.calls)) ∧
        (∀ before city after, cs = before ++ city :: after →
          ∃ fs1 s1, h.stateAfter before fs s = some (fs1, s1) ∧
            fs1 = fs ++ (picks.take before.length).filterMap Prod.snd ∧
            picks[before.length]? = some (city, h.spec_contribution city s1.world)) := by
  intro cs
  induction cs with
  | nil =>
    intro fs s r s2 hrun _
    simp only [GetForecastHandler.cityLoop, Prod.mk.injEq, Except.ok.injEq] at hrun
    obtain ⟨rfl, rfl⟩ := hrun
    exact ⟨[], rfl, by simp, by simp, by simp, by simp⟩
  | cons c cs ih =>
    intro fs s r s2 hrun h200
    obtain ⟨a1, ha1, hcases⟩ := cityIteration_cases h c fs s
    simp only [GetForecastHandler.cityLoop] at hrun
    rcases hit : h.cityIteration c fs s with ⟨fl, s1⟩
    rw [hit] at hrun ha1 hcases
    simp only at ha1 hcases
    have hsub : ∀ fs1, h.cityLoop cs fs1 s1 = (.ok r, s2) → ∀ x ∈ a1, x ∈ s2.calls := by
      intro fs1 hrun1 x hx
      obtain ⟨a2, ha2⟩ := cityLoop_calls_extend h cs fs1 s1
      have : s2.calls = s1.calls ++ a2 := by rw [← ha2, hrun1]
      rw [this, ha1]
      simp [hx]
    rcases hcases with ⟨hfl, hadd⟩ | ⟨hfl, hmiss, -⟩ | ⟨fc, hfl, hname, hset⟩ |
      ⟨r1, hfl, hst⟩ | ⟨p, hfl⟩
    · subst hfl
      simp only at hrun
      have ho : h.spec_contribution c s.world = some (h.cache_Get c s.world).1.1 := by
        have := List.append_cancel_left (cityIteration_next_eq h c fs _ s s1 hit)
        cases hc : h.spec_contribution c s.world <;> simp [hc] at this
        rw [this]
      obtain ⟨picks, hp1, hp2, hp3, hp4, hp5⟩ := ih _ s1 r s2 hrun h200
      refine ⟨(c, some (h.cache_Get c s.world).1.1) :: picks, by simp [hp1], ?_, ?_, ?_,
        picks_position_step h c cs fs _ s s1 _ picks hit ho hp5⟩
      · rw [hp2]; simp
      · intro d hd
        simp only [List.mem_cons, Prod.mk.injEq, reduceCtorEq, and_false, false_or] at hd
        exact hp3 d hd
      · intro d f hd
        simp only [List.mem_cons, Prod.mk.injEq, Option.some.injEq] at hd
        rcases hd with ⟨rfl, rfl⟩ | hd
        · exact Or.inl (hsub _ hrun _ (by rw [hadd]; simp))
        · exact hp4 d f hd
    · subst hfl
      simp only at hrun
      have ho : h.spec_contribution c s.world = none := by
        have := cityIteration_next_eq h c fs _ s s1 hit
        cases hc : h.spec_contribution c s.world <;> simp [hc] at this
        rfl
      obtain ⟨picks, hp1, hp2, hp3, hp4, hp5⟩ := ih _ s1 r s2 hrun h200
      refine ⟨(c, none) :: picks, by simp [hp1], ?_, ?_, ?_,
        picks_position_step h c cs fs _ s s1 _ picks hit ho hp5⟩
      · rw [hp2]; simp
      · intro d hd
        simp only [List.mem_cons, Prod.mk.injEq, and_true] at hd
        rcases hd with rfl | hd
        · exact ⟨_, hsub _ hrun _ hmiss⟩
        · exact hp3 d hd
      · intro d f hd
        simp only [List.mem_cons, Prod.mk.injEq, reduceCtorEq, and_false, false_or] at hd
        exact hp4 d f hd
    · subst hfl
      simp only at hrun
      have ho : h.spec_contribution c s.world = some (some fc) := by
        have := List.append_cancel_left (cityIteration_next_eq h c fs _ s s1 hit)
        cases hc : h.spec_contribution c s.world <;> simp [hc] at this
        rw [this]
      obtain ⟨picks, hp1, hp2, hp3, hp4, hp5⟩ := ih _ s1 r s2 hrun h200
      refine ⟨(c, some (some fc)) :: picks, by simp [hp1], ?_, ?_, ?_,
        picks_position_step h c cs fs _ s s1 _ picks hit ho hp5⟩
      · rw [hp2]; simp
      · intro d hd
        simp only [List.mem_cons, Prod.mk.injEq, reduceCtorEq, and_false, false_or] at hd
        exact hp3 d hd
      · intro d f hd
        simp only [List.mem_cons, Prod.mk.injEq, Option.some.injEq] at hd
        rcases hd with ⟨rfl, rfl⟩ | hd
        · exact Or.inr ⟨fc, rfl, hname, hsub _ hrun _ hset⟩
        · exact hp4 d f hd
    · subst hfl
      simp only [Prod.mk.injEq, Except.ok.injEq] at hrun
      obtain ⟨rfl, -⟩ := hrun
      omega
    · subst hfl
      simp at hrun

theorem cityIteration_world_indep {W : Type} (h : GetForecastHandler W) (city : String)
    (fs fs1 : List (Ptr v1.Forecast)) (s : St W) :
    (h.cityIteration city fs s).2 = (h.cityIteration city fs1 s).2 := by
  unfold GetForecastHandler.cityIteration
  simp only []
  repeat' split
  all_goals rfl

theorem cityIteration_of_degrades {W : Type} (h : GetForecastHandler W) (city : String)
    (fs : List (Ptr v1.Forecast)) (s : St W) (hdeg : h.degrades city s.world = true) :
    (h.cityIteration city fs s).1 = Flow.next fs := by
  unfold GetForecastHandler.degrades at hdeg
  unfold GetForecastHandler.cityIteration
  simp only [Bool.and_eq_true, Bool.not_eq_true', Option.isNone_iff_eq_none] at hdeg
  obtain ⟨⟨hmiss, hnoerr⟩, hrest⟩ := hdeg
  simp only [hmiss, hnoerr]
  split at hrest
  · rfl
  · simp at hrest
  · rename_i place others hpl
    split at hrest
    · rename_i points hpt
      simp only [Option.isSome_iff_exists] at hrest
      obtain ⟨e, he⟩ := hrest
      simp only [hpt, he]
      rfl
    · simp at hrest

theorem cityLoop_of_allDegrade {W : Type} (h : GetForecastHandler W) :
    ∀ (cs : List String) (fs : List (Ptr v1.Forecast)) (s : St W),
      h.allDegrade cs s = true →
      ∃ s2, h.cityLoop cs fs s = (.ok ⟨200, Body.weather ⟨fs⟩⟩, s2) := by
  intro cs
  induction cs with
  | nil => intro fs s _; exact ⟨s, rfl⟩
  | cons c cs ih =>
    intro fs s hall
    simp only [GetForecastHandler.allDegrade, Bool.and_eq_true] at hall
    have h1 := cityIteration_of_degrades h c fs s hall.1
    have h2 := cityIteration_world_indep h c fs [] s
    simp only [GetForecastHandler.cityLoop]
    rcases hit : h.cityIteration c fs s with ⟨fl, s1⟩
    rw [hit] at h1 h2
    simp only at h1 h2
    subst h1
    rw [← h2] at hall
    exact ih fs s1 hall.2

/-- The loop over the periods appends to `detail` the images of the longest leading run
of periods none of which is daytime and starts after `t`. -/
theorem periodLoop_eq {t : Time} :
    ∀ (periods : List weathergov.Periods) (detail : List (Ptr v1.Detail)),
      ∃ included rest, periods = included ++ rest ∧
        (∀ p ∈ included, ¬ (p.IsDaytime = true ∧ t.nsec < p.StartTime.nsec)) ∧
        (∀ b later, rest = b :: later → b.IsDaytime = true ∧ t.nsec < b.StartTime.nsec) ∧
        periodLoop t periods detail
          = detail ++ included.map
              (fun p => some ⟨p.StartTime, p.EndTime, p.DetailedForecast⟩) := by
  intro periods
  induction periods with
  | nil => intro detail; exact ⟨[], [], rfl, by simp, by simp, by simp [periodLoop]⟩
  | cons p ps ih =>
    intro detail
    by_cases hb : p.IsDaytime = true ∧ t.nsec < p.StartTime.nsec
    · refine ⟨[], p :: ps, rfl, by simp, ?_, ?_⟩
      · intro b later hcons
        simp only [List.cons.injEq] at hcons
        rw [← hcons.1]; exact hb
      · simp [periodLoop, time.After, hb.1, hb.2]
    · obtain ⟨included, rest, hsplit, hin, hrest, hloop⟩ :=
        ih (detail ++ [some ⟨p.StartTime, p.EndTime, p.DetailedForecast⟩])
      refine ⟨p :: included, rest, by simp [hsplit], ?_, hrest, ?_⟩
      · intro q hq
        simp only [List.mem_cons] at hq
        rcases hq with rfl | hq
        · exact hb
        · exact hin q hq
      · have hcond : (p.IsDaytime && time.After p.StartTime t) = false := by
          simp only [time.After, Bool.and_eq_false_imp, decide_eq_false_iff_not]
          intro hd hlt
          exact hb ⟨hd, hlt⟩
        simp only [periodLoop, hcond, hloop]
        simp

/-! ## The cache -/

/-- C1 (the code departs from the claim): an entry whose first detail starts earlier than
`now - 5h` is not treated as expired; `Store.Get` hands the entry back with `true`,
because it compares `start - now`, not `now - start`, with the expiry. -/
theorem Get_returns_entry_older_than_expiry (c : cache.Store) (k : String) (now : Time)
    (f : v1.Forecast) (d : v1.Detail) (ds : List (Ptr v1.Detail))
    (hk : c.data k = some (some f)) (hd : f.Detail = some d :: ds)
    (hold : d.StartTime.nsec < now.nsec - cache.defaultExpiry) :
    c.Get k now = .ok (some f, true) := by
  have hnot : ¬ cache.defaultExpiry < time.Sub d.StartTime now := by
    rw [Sub_exceeds_expiry_iff]
    rw [defaultExpiry_eq] at hold
    omega
  simp [cache.Store.Get, hk, cache.firstStartTime, hd, hnot]

theorem Get_returns_entry_older_than_expiry_witness :
    (0 : Int) < 6 * time.Hour - cache.defaultExpiry ∧
    (cache.NewStore.Set "boston" (some (sampleForecast 0))).Get "boston" ⟨6 * time.Hour⟩
      = .ok (some (sampleForecast 0), true) :=
  ⟨by decide,
   Get_returns_entry_older_than_expiry _ "boston" ⟨6 * time.Hour⟩ (sampleForecast 0)
     ⟨⟨0⟩, ⟨0 + time.Hour⟩, "Sunny"⟩ [] (Set_data_same _ _ _) rfl (by decide)⟩

/-- C2 (the code departs from the claim): on an entry whose detail list is empty,
`Store.Get` panics with an index out of range at `entry.Detail[0]`; it does not
return `(nil, false)`. -/
theorem Get_panics_on_empty_detail (c : cache.Store) (k : String) (now : Time)
    (f : v1.Forecast) (hk : c.data k = some (some f)) (hd : f.Detail = []) :
    c.Get k now = .error Panic.indexOutOfRange := by
  simp [cache.Store.Get, hk, cache.firstStartTime, hd]

theorem Get_panics_on_empty_detail_witness :
    (cache.NewStore.Set "boston" (some ⟨"Boston", []⟩)).Get "boston" ⟨0⟩
      = .error Panic.indexOutOfRange :=
  Get_panics_on_empty_detail _ "boston" ⟨0⟩ ⟨"Boston", []⟩ (Set_data_same _ _ _) rfl

/-- C3 (the code departs from the claim): a forecast whose first detail starts more than
five hours after `now` satisfies the claim's condition `now - start <= 5h`, and yet
`Set(k, f)` followed by `Get(k)` answers `(nil, false)`, whatever the store held:
`Store.Get` compares `start - now`, not `now - start`, with the expiry. -/
theorem Set_then_Get_misses_later_start (c : cache.Store) (k : String) (now : Time)
    (f : v1.Forecast) (d : v1.Detail) (ds : List (Ptr v1.Detail))
    (hd : f.Detail = some d :: ds)
    (hlate : cache.defaultExpiry < d.StartTime.nsec - now.nsec) :
    now.nsec - d.StartTime.nsec ≤ cache.defaultExpiry ∧
    (c.Set k (some f)).Get k now = .ok (none, false) := by
  have hE := defaultExpiry_eq
  have h : cache.defaultExpiry < time.Sub d.StartTime now :=
    (Sub_exceeds_expiry_iff _ _).2 (by omega)
  refine ⟨by omega, ?_⟩
  simp [cache.Store.Get, Set_data_same, cache.firstStartTime, hd, h]

theorem Set_then_Get_misses_later_start_witness :
    (0 : Int) - 6 * time.Hour ≤ cache.defaultExpiry ∧
    (cache.NewStore.Set "boston" (some (sampleForecast (6 * time.Hour)))).Get "boston" ⟨0⟩
      = .ok (none, false) :=
  Set_then_Get_misses_later_start cache.NewStore "boston" ⟨0⟩ (sampleForecast (6 * time.Hour))
    ⟨⟨6 * time.Hour⟩, ⟨6 * time.Hour + time.Hour⟩, "Sunny"⟩ [] rfl (by decide)

/-! ## The handler -/

/-- C4: when the loop reaches a city whose cache lookup misses and whose geocoding call
returns an error, `GetForecast` answers 500 with the message
`Unable to retrieve weather forecast`: the body carries none of the forecasts `fs`
assembled for the earlier cities, and the calls made are those of the earlier cities
followed by this city's cache lookup and geocoding call, so nothing is looked up, fetched
or written for a later city. -/
theorem GetForecast_geocoding_error {W : Type} (h : GetForecastHandler W) (req : Request)
    (w : W) (citiesStr : String) (before after : List String) (city : String)
    (fs : List (Ptr v1.Forecast)) (s : St W)
    (f0 : Ptr v1.Forecast) (w1 w2 : W) (places : List (Ptr openstreetmap.Place)) (e : String)
    (hq : req.city = some citiesStr) (hne : citiesStr ≠ "")
    (hsplit : strings.Split citiesStr ',' = before ++ city :: after)
    (hreach : h.stateAfter before [] ⟨w, []⟩ = some (fs, s))
    (hget : h.cache_Get city s.world = ((f0, false), w1))
    (hplace : h.openStreetMapAPI_GetPlace ⟨city ++ "," ++ defaultCountry, defaultFormat⟩ w1
                = ((places, some e), w2)) :
    h.GetForecast req w
      = (.ok ⟨500, Body.message "Unable to retrieve weather forecast"⟩,
         ⟨w2, s.calls ++ [Call.cacheGet city f0 false,
            Call.GetPlace ⟨city ++ "," ++ defaultCountry, defaultFormat⟩]⟩) := by
  rw [GetForecast_at_city h req w citiesStr before after city fs s hq hne hsplit hreach]
  unfold GetForecastHandler.cityLoop GetForecastHandler.cityIteration
  simp only [hget, hplace, List.append_assoc, List.singleton_append]
  rfl

theorem GetForecast_geocoding_error_witness :
    sampleHandler.GetForecast ⟨some "boston,down,noforecast"⟩ []
      = (.ok ⟨500, Body.message "Unable to retrieve weather forecast"⟩,
         ⟨[("boston", some bostonForecast)],
          afterBoston.calls ++
            [Call.cacheGet "down" none false, Call.GetPlace ⟨"down,USA", "json"⟩]⟩) :=
  GetForecast_geocoding_error sampleHandler ⟨some "boston,down,noforecast"⟩ []
    "boston,down,noforecast" ["boston"] ["noforecast"] "down" [some bostonForecast] afterBoston
    none afterBoston.world afterBoston.world [] "timeout" rfl (by decide) rfl rfl rfl rfl

/-- C5 (the code departs from the claim): when the cache misses, geocoding returns a first
candidate and the point lookup returns an error with no point reference, `GetForecast`
panics on `points.Properties.Forecast`, a nil dereference. No response is written, the
forecast fetch is never called, and the loop does not go on to the next city: the last
call made is this city's point lookup. -/
theorem GetForecast_panics_without_points {W : Type} (h : GetForecastHandler W) (req : Request)
    (w : W) (citiesStr : String) (before after : List String) (city : String)
    (fs : List (Ptr v1.Forecast)) (s : St W)
    (f0 : Ptr v1.Forecast) (w1 w2 w3 : W)
    (place : openstreetmap.Place) (others : List (Ptr openstreetmap.Place)) (e : String)
    (hq : req.city = some citiesStr) (hne : citiesStr ≠ "")
    (hsplit : strings.Split citiesStr ',' = before ++ city :: after)
    (hreach : h.stateAfter before [] ⟨w, []⟩ = some (fs, s))
    (hget : h.cache_Get city s.world = ((f0, false), w1))
    (hplace : h.openStreetMapAPI_GetPlace ⟨city ++ "," ++ defaultCountry, defaultFormat⟩ w1
                = ((some place :: others, none), w2))
    (hpoints : h.weatherGovAPI_GetPoints ⟨place.Lat, place.Lon⟩ w2 = ((none, some e), w3)) :
    h.GetForecast req w
      = (.error Panic.nilDereference,
         ⟨w3, s.calls ++ [Call.cacheGet city f0 false,
            Call.GetPlace ⟨city ++ "," ++ defaultCountry, defaultFormat⟩,
            Call.GetPoints ⟨place.Lat, place.Lon⟩]⟩) := by
  rw [GetForecast_at_city h req w citiesStr before after city fs s hq hne hsplit hreach]
  unfold GetForecastHandler.cityLoop GetForecastHandler.cityIteration
  simp only [hget, hplace, hpoints, List.append_assoc, List.singleton_append]
  rfl

theorem GetForecast_panics_without_points_witness :
    sampleHandler.GetForecast ⟨some "boston,nopoint,noforecast"⟩ []
      = (.error Panic.nilDereference,
         ⟨[("boston", some bostonForecast)],
          afterBoston.calls ++
            [Call.cacheGet "nopoint" none false, Call.GetPlace ⟨"nopoint,USA", "json"⟩,
             Call.GetPoints ⟨"0", "0"⟩]⟩) :=
  GetForecast_panics_without_points sampleHandler ⟨some "boston,nopoint,noforecast"⟩ []
    "boston,nopoint,noforecast" ["boston"] ["noforecast"] "nopoint" [some bostonForecast]
    afterBoston none afterBoston.world afterBoston.world afterBoston.world
    ⟨1, "0", "0", "nopoint,USA"⟩ [] "points failed"
    rfl (by decide) rfl rfl rfl rfl rfl

/-- C6: when the loop reaches a city that degrades (the cache misses and geocoding returns
no candidate, or the forecast fetch fails after a successful point lookup), the iteration
leaves the forecasts as they were and makes no `Cache.Set`, and the loop goes on with the
later cities. The request then ends with status 200 whenever no later city ends it
otherwise (by the response 500 or a panic); when the later cities degrade too it ends
with status 200 and exactly the forecasts assembled before, the empty list when no city
came before. -/
theorem GetForecast_degraded_city {W : Type} (h : GetForecastHandler W) (req : Request)
    (w : W) (citiesStr : String) (before after : List String) (city : String)
    (fs : List (Ptr v1.Forecast)) (s : St W)
    (hq : req.city = some citiesStr) (hne : citiesStr ≠ "")
    (hsplit : strings.Split citiesStr ',' = before ++ city :: after)
    (hreach : h.stateAfter before [] ⟨w, []⟩ = some (fs, s))
    (hdeg : h.degrades city s.world = true) :
    ∃ s1 added, h.cityIteration city fs s = (Flow.next fs, s1) ∧
      s1.calls = s.calls ++ added ∧ (∀ k v, Call.cacheSet k v ∉ added) ∧
      h.GetForecast req w = h.cityLoop after fs s1 ∧
      (∀ fs2 s2, h.stateAfter after fs s1 = some (fs2, s2) →
        h.GetForecast req w = (.ok ⟨200, Body.weather ⟨fs2⟩⟩, s2)) ∧
      (h.allDegrade after s1 = true →
        ∃ s2, h.GetForecast req w = (.ok ⟨200, Body.weather ⟨fs⟩⟩, s2)) ∧
      (before = [] → fs = []) := by
  have h1 := cityIteration_of_degrades h city fs s hdeg
  obtain ⟨added, hcalls, hcases⟩ := cityIteration_cases h city fs s
  rcases hit : h.cityIteration city fs s with ⟨fl, s1⟩
  rw [hit] at h1 hcalls hcases
  simp only at h1 hcalls hcases
  subst h1
  have hloop : h.GetForecast req w = h.cityLoop after fs s1 := by
    rw [GetForecast_at_city h req w citiesStr before after city fs s hq hne hsplit hreach]
    simp only [GetForecastHandler.cityLoop, hit]
  have hnoset : ∀ k v, Call.cacheSet k v ∉ added := by
    rcases hcases with ⟨-, hadd⟩ | ⟨-, -, hno⟩ | ⟨fc, hfl, -, -⟩ | ⟨r1, hfl, -⟩ | ⟨p, hfl⟩
    · subst hadd; simp
    · exact hno
    · simp at hfl
    · simp at hfl
    · simp at hfl
  refine ⟨s1, added, rfl, hcalls, hnoset, hloop, ?_, ?_, ?_⟩
  · intro fs2 s2 hst
    rw [hloop]
    exact cityLoop_of_stateAfter h after fs s1 fs2 s2 hst
  · intro hall
    obtain ⟨s2, hs2⟩ := cityLoop_of_allDegrade h after fs s1 hall
    exact ⟨s2, by rw [hloop, hs2]⟩
  · intro hb
    subst hb
    simp only [GetForecastHandler.stateAfter, Option.some.injEq, Prod.mk.injEq] at hreach
    exact hreach.1.symm

theorem GetForecast_degraded_city_witness :
    ∃ s2, sampleHandler.GetForecast ⟨some "boston,atlantis,noforecast"⟩ []
      = (.ok ⟨200, Body.weather ⟨[some bostonForecast]⟩⟩, s2) := by
  obtain ⟨s1, added, hit, -, -, -, -, hall, -⟩ :=
    GetForecast_degraded_city sampleHandler ⟨some "boston,atlantis,noforecast"⟩ []
      "boston,atlantis,noforecast" ["boston"] ["noforecast"] "atlantis"
      [some bostonForecast] afterBoston rfl (by decide) rfl rfl rfl
  have hs1 : s1 = (sampleHandler.cityIteration "atlantis" [some bostonForecast]
      afterBoston).2 := by rw [hit]
  subst hs1
  exact hall rfl

/-- C7: for a freshly resolved city (cache miss, a first geocoding candidate, a point
reference, a forecast fetched without error) and the time `now` read after the fetch, the
detail list of the forecast built is the image, in order, under
`p ↦ Detail{p.StartTime, p.EndTime, p.DetailedForecast}` of the longest run `included`
of leading periods none of which is daytime with a start after `now` + 2 days: the rest
of the periods is empty or begins with such a period, and nothing of the rest is
included; a period that is not daytime never ends the run, whatever its start. -/
theorem cityIteration_detail_is_longest_run {W : Type} (h : GetForecastHandler W)
    (city : String) (fs : List (Ptr v1.Forecast)) (s : St W)
    (f0 : Ptr v1.Forecast) (w1 w2 w3 w4 w5 : W)
    (place : openstreetmap.Place) (others : List (Ptr openstreetmap.Place))
    (points : weathergov.Points) (perr : GoError) (forecastResp : weathergov.Forecast)
    (now : Time)
    (hget : h.cache_Get city s.world = ((f0, false), w1))
    (hplace : h.openStreetMapAPI_GetPlace ⟨city ++ "," ++ defaultCountry, defaultFormat⟩ w1
                = ((some place :: others, none), w2))
    (hpoints : h.weatherGovAPI_GetPoints ⟨place.Lat, place.Lon⟩ w2
                = ((some points, perr), w3))
    (hfetch : h.weatherGovAPI_GetForecast points.Properties.Forecast w3
                = ((some forecastResp, none), w4))
    (hnow : h.time_Now w4 = (now, w5)) :
    ∃ forecast s1 included rest,
      h.cityIteration city fs s = (Flow.next (fs ++ [some forecast]), s1) ∧
      forecastResp.Properties.Periods = included ++ rest ∧
      (∀ p ∈ included,
        ¬ (p.IsDaytime = true ∧ now.nsec + 2 * (24 * time.Hour) < p.StartTime.nsec)) ∧
      (∀ b later, rest = b :: later →
        b.IsDaytime = true ∧ now.nsec + 2 * (24 * time.Hour) < b.StartTime.nsec) ∧
      forecast.Detail
        = included.map (fun p => some ⟨p.StartTime, p.EndTime, p.DetailedForecast⟩) := by
  obtain ⟨included, rest, hsplit, hin, hrest, hloop⟩ :=
    @periodLoop_eq (time.AddDays now 2) forecastResp.Properties.Periods []
  refine ⟨⟨h.cases_Title city, periodLoop (time.AddDays now 2)
      forecastResp.Properties.Periods []⟩,
    ⟨h.cache_Set city (some ⟨h.cases_Title city, periodLoop (time.AddDays now 2)
      forecastResp.Properties.Periods []⟩) w5,
     s.calls ++ [Call.cacheGet city f0 false] ++
      [Call.GetPlace ⟨city ++ "," ++ defaultCountry, defaultFormat⟩] ++
      [Call.GetPoints ⟨place.Lat, place.Lon⟩] ++
      [Call.GetForecast points.Properties.Forecast] ++
      [Call.cacheSet city (some ⟨h.cases_Title city, periodLoop (time.AddDays now 2)
        forecastResp.Properties.Periods []⟩)]⟩,
    included, rest, ?_, hsplit, hin, hrest, ?_⟩
  · unfold GetForecastHandler.cityIteration
    simp only [hget, hplace, hpoints, hfetch, hnow]
    rfl
  · simpa using hloop

theorem cityIteration_detail_is_longest_run_witness :
    ∃ forecast s1 included rest,
      sampleHandler.cityIteration "boston" [] ⟨[], []⟩
        = (Flow.next ([] ++ [some forecast]), s1) ∧
      samplePeriods = included ++ rest ∧
      (∀ p ∈ included,
        ¬ (p.IsDaytime = true ∧ (0 : Int) + 2 * (24 * time.Hour) < p.StartTime.nsec)) ∧
      (∀ b later, rest = b :: later →
        b.IsDaytime = true ∧ (0 : Int) + 2 * (24 * time.Hour) < b.StartTime.nsec) ∧
      forecast.Detail
        = included.map (fun p => some ⟨p.StartTime, p.EndTime, p.DetailedForecast⟩) :=
  cityIteration_detail_is_longest_run sampleHandler "boston" [] ⟨[], []⟩ none [] [] [] [] []
    ⟨3, "40.7", "-74.0", "boston,USA"⟩ [] ⟨"id", ⟨"gridpoints/OKX/33,35/forecast"⟩⟩ none
    ⟨⟨samplePeriods⟩⟩ ⟨0⟩ rfl rfl rfl rfl rfl

/-- C8: when the loop reaches a city for which `Cache.Get` returns `(f, true)`, the
iteration appends exactly `f` to the forecasts and its only call is that cache lookup: no
geocoding, point lookup or forecast fetch and no `Cache.Set`; the loop goes on with the
later cities, and a response with status 200 lists `f` right after the forecasts of the
earlier cities. -/
theorem GetForecast_cache_hit {W : Type} (h : GetForecastHandler W) (req : Request)
    (w : W) (citiesStr : String) (before after : List String) (city : String)
    (fs : List (Ptr v1.Forecast)) (s : St W) (f : Ptr v1.Forecast) (w1 : W)
    (hq : req.city = some citiesStr) (hne : citiesStr ≠ "")
    (hsplit : strings.Split citiesStr ',' = before ++ city :: after)
    (hreach : h.stateAfter before [] ⟨w, []⟩ = some (fs, s))
    (hget : h.cache_Get city s.world = ((f, true), w1)) :
    h.cityIteration city fs s
      = (Flow.next (fs ++ [f]), ⟨w1, s.calls ++ [Call.cacheGet city f true]⟩) ∧
    h.GetForecast req w
      = h.cityLoop after (fs ++ [f]) ⟨w1, s.calls ++ [Call.cacheGet city f true]⟩ ∧
    (∀ r s2, h.GetForecast req w = (.ok r, s2) → r.status = 200 →
      ∃ later, r.body = Body.weather ⟨fs ++ f :: later⟩) := by
  have hit : h.cityIteration city fs s
      = (Flow.next (fs ++ [f]), ⟨w1, s.calls ++ [Call.cacheGet city f true]⟩) := by
    unfold GetForecastHandler.cityIteration
    simp only [hget]
    rfl
  have hloop : h.GetForecast req w
      = h.cityLoop after (fs ++ [f]) ⟨w1, s.calls ++ [Call.cacheGet city f true]⟩ := by
    rw [GetForecast_at_city h req w citiesStr before after city fs s hq hne hsplit hreach]
    simp only [GetForecastHandler.cityLoop, hit]
  refine ⟨hit, hloop, ?_⟩
  intro r s2 hrun h200
  rw [hloop] at hrun
  obtain ⟨picks, -, hbody, -⟩ := cityLoop_ok_picks h after _ _ r s2 hrun h200
  exact ⟨picks.filterMap Prod.snd, by rw [hbody]; simp⟩

theorem GetForecast_cache_hit_witness :
    sampleHandler.cityIteration "boston" [] ⟨[("boston", some (sampleForecast 0))], []⟩
      = (Flow.next ([] ++ [some (sampleForecast 0)]),
         ⟨[("boston", some (sampleForecast 0))],
          [] ++ [Call.cacheGet "boston" (some (sampleForecast 0)) true]⟩) ∧
    sampleHandler.GetForecast ⟨some "boston,atlantis"⟩ [("boston", some (sampleForecast 0))]
      = sampleHandler.cityLoop ["atlantis"] ([] ++ [some (sampleForecast 0)])
          ⟨[("boston", some (sampleForecast 0))],
           [] ++ [Call.cacheGet "boston" (some (sampleForecast 0)) true]⟩ ∧
    (∀ r s2,
      sampleHandler.GetForecast ⟨some "boston,atlantis"⟩ [("boston", some (sampleForecast 0))]
        = (.ok r, s2) → r.status = 200 →
      ∃ later, r.body = Body.weather ⟨[] ++ some (sampleForecast 0) :: later⟩) :=
  GetForecast_cache_hit sampleHandler ⟨some "boston,atlantis"⟩
    [("boston", some (sampleForecast 0))] "boston,atlantis" [] ["atlantis"] "boston" []
    ⟨[("boston", some (sampleForecast 0))], []⟩ (some (sampleForecast 0))
    [("boston", some (sampleForecast 0))] rfl (by decide) rfl rfl rfl

/-- C9: when `GetForecast` answers with status 200, the city parameter is present and the
forecast list of the response is read off the requested cities (the parameter split on
`,`) in request order. Every city occurrence has one pick, and the response lists the
picks that are forecasts, in order. The pick of a city is what the spec says it
contributes in the world the loop has reached at its turn: the cached forecast when the
cache serves the city, the forecast built for it (named by its title-cased city, with the
filtered details) when it is fully resolved, and nothing when it degraded; the forecasts
assembled before its turn are those picked for the earlier cities. A cached pick was
returned by a cache lookup for that city, a built one was written to the cache under that
city, and a city without a pick had its cache lookup miss. So the cities that contribute
form a subsequence of the request, and there are at most as many forecasts as cities. -/
theorem GetForecast_ok_follows_request_order {W : Type} (h : GetForecastHandler W)
    (req : Request) (w : W) (r : Response) (s2 : St W)
    (hrun : h.GetForecast req w = (.ok r, s2)) (h200 : r.status = 200) :
    ∃ (citiesStr : String) (picks : List (String × Option (Ptr v1.Forecast))),
      req.city = some citiesStr ∧
      picks.map Prod.fst = strings.Split citiesStr ',' ∧
      r.body = Body.weather ⟨picks.filterMap Prod.snd⟩ ∧
      (∀ before city after, strings.Split citiesStr ',' = before ++ city :: after →
        ∃ fs s, h.stateAfter before [] ⟨w, []⟩ = some (fs, s) ∧
          fs = (picks.take before.length).filterMap Prod.snd ∧
          picks[before.length]? = some (city, h.spec_contribution city s.world)) ∧
      (∀ c, (c, none) ∈ picks → ∃ v, Call.cacheGet c v false ∈ s2.calls) ∧
      (∀ c f, (c, some f) ∈ picks →
        Call.cacheGet c f true ∈ s2.calls ∨
        (∃ fc, f = some fc ∧ fc.Name = h.cases_Title c ∧ Call.cacheSet c f ∈ s2.calls)) ∧
      List.Sublist ((picks.filter (fun p => p.2.isSome)).map Prod.fst)
        (strings.Split citiesStr ',') ∧
      (picks.filterMap Prod.snd).length ≤ (strings.Split citiesStr ',').length := by
  unfold GetForecastHandler.GetForecast at hrun
  simp only [] at hrun
  split at hrun
  · simp only [Prod.mk.injEq, Except.ok.injEq] at hrun
    obtain ⟨rfl, -⟩ := hrun
    simp at h200
  · rename_i hne
    cases hc : req.city with
    | none => simp [DefaultQuery, hc] at hne
    | some citiesStr =>
      simp only [DefaultQuery, hc] at hrun
      obtain ⟨picks, hp1, hp2, hp3, hp4, hp5⟩ :=
        cityLoop_ok_picks h _ [] ⟨w, []⟩ r s2 hrun h200
      refine ⟨citiesStr, picks, rfl, hp1, by simpa using hp2, ?_, hp3, hp4, ?_, ?_⟩
      · intro before city after hsplit
        obtain ⟨fs, s, hst, hfs, hget⟩ := hp5 before city after hsplit
        exact ⟨fs, s, hst, by simpa using hfs, hget⟩
      · rw [← hp1]
        exact (List.filter_sublist picks).map Prod.fst
      · rw [← hp1, List.length_map]
        exact List.length_filterMap_le _ _

theorem GetForecast_ok_follows_request_order_witness :
    ∃ (citiesStr : String) (picks : List (String × Option (Ptr v1.Forecast))),
      (some "boston,atlantis,noforecast" : Option String) = some citiesStr ∧
      picks.map Prod.fst = strings.Split citiesStr ',' ∧
      Body.weather ⟨[some bostonForecast]⟩ = Body.weather ⟨picks.filterMap Prod.snd⟩ ∧
      (∀ before city after, strings.Split citiesStr ',' = before ++ city :: after →
        ∃ fs s, sampleHandler.stateAfter before [] ⟨[], []⟩ = some (fs, s) ∧
          fs = (picks.take before.length).filterMap Prod.snd ∧
          picks[before.length]? = some (city, sampleHandler.spec_contribution city s.world)) ∧
      (∀ c, (c, none) ∈ picks → ∃ v, Call.cacheGet c v false ∈
        (sampleHandler.GetForecast ⟨some "boston,atlantis,noforecast"⟩ []).2.calls) ∧
      (∀ c f, (c, some f) ∈ picks →
        Call.cacheGet c f true ∈
          (sampleHandler.GetForecast ⟨some "boston,atlantis,noforecast"⟩ []).2.calls ∨
        (∃ fc, f = some fc ∧ fc.Name = sampleHandler.cases_Title c ∧
          Call.cacheSet c f ∈
            (sampleHandler.GetForecast ⟨some "boston,atlantis,noforecast"⟩ []).2.calls)) ∧
      List.Sublist ((picks.filter (fun p => p.2.isSome)).map Prod.fst)
        (strings.Split citiesStr ',') ∧
      (picks.filterMap Prod.snd).length ≤ (strings.Split citiesStr ',').length :=
  GetForecast_ok_follows_request_order sampleHandler ⟨some "boston,atlantis,noforecast"⟩ []
    ⟨200, Body.weather ⟨[some bostonForecast]⟩⟩
    (sampleHandler.GetForecast ⟨some "boston,atlantis,noforecast"⟩ []).2 rfl rfl

/-- C10: when the query parameter `city` is absent or empty, `GetForecast` answers 400 with
the message `Query param 'city' missing.`, leaves the world as it was and makes no call:
no cache lookup, no upstream call, no cache write. -/
theorem GetForecast_missing_city {W : Type} (h : GetForecastHandler W) (req : Request) (w : W)
    (hq : req.city = none ∨ req.city = some "") :
    h.GetForecast req w
      = (.ok ⟨400, Body.message "Query param 'city' missing."⟩, ⟨w, []⟩) := by
  rcases hq with hq | hq <;> simp [GetForecastHandler.GetForecast, DefaultQuery, hq]

theorem GetForecast_missing_city_witness :
    sampleHandler.GetForecast ⟨some ""⟩ [("boston", some (sampleForecast 0))]
      = (.ok ⟨400, Body.message "Query param 'city' missing."⟩,
         ⟨[("boston", some (sampleForecast 0))], []⟩) :=
  GetForecast_missing_city sampleHandler ⟨some ""⟩ _ (Or.inr rfl)

/-- C11: when the loop reaches a city whose cache lookup misses, whose geocoding returns a
first candidate and whose point lookup and forecast fetch both succeed, the iteration
appends exactly one forecast, named by the title-cased city and holding the filtered
details (also when these are empty: no period at all, or a first period that is daytime
and starts after `now` + 2 days), and calls `Cache.Set` exactly once, as its last call,
with the city string as it came in the request as key and that same forecast as value.
The loop goes on with the later cities, and a response with status 200 lists the forecast
right after those of the earlier cities. -/
theorem GetForecast_fresh_city {W : Type} (h : GetForecastHandler W) (req : Request)
    (w : W) (citiesStr : String) (before after : List String) (city : String)
    (fs : List (Ptr v1.Forecast)) (s : St W)
    (f0 : Ptr v1.Forecast) (w1 w2 w3 w4 w5 : W)
    (place : openstreetmap.Place) (others : List (Ptr openstreetmap.Place))
    (points : weathergov.Points) (forecastResp : weathergov.Forecast) (now : Time)
    (hq : req.city = some citiesStr) (hne : citiesStr ≠ "")
    (hsplit : strings.Split citiesStr ',' = before ++ city :: after)
    (hreach : h.stateAfter before [] ⟨w, []⟩ = some (fs, s))
    (hget : h.cache_Get city s.world = ((f0, false), w1))
    (hplace : h.openStreetMapAPI_GetPlace ⟨city ++ "," ++ defaultCountry, defaultFormat⟩ w1
                = ((some place :: others, none), w2))
    (hpoints : h.weatherGovAPI_GetPoints ⟨place.Lat, place.Lon⟩ w2
                = ((some points, none), w3))
    (hfetch : h.weatherGovAPI_GetForecast points.Properties.Forecast w3
                = ((some forecastResp, none), w4))
    (hnow : h.time_Now w4 = (now, w5)) :
    ∃ (forecast : v1.Forecast) (added : List Call),
      forecast.Name = h.cases_Title city ∧
      forecast.Detail = periodLoop (time.AddDays now 2) forecastResp.Properties.Periods [] ∧
      (forecastResp.Properties.Periods = [] → forecast.Detail = []) ∧
      (∀ b later, forecastResp.Properties.Periods = b :: later → b.IsDaytime = true →
        now.nsec + 2 * (24 * time.Hour) < b.StartTime.nsec → forecast.Detail = []) ∧
      added = [Call.cacheGet city f0 false,
               Call.GetPlace ⟨city ++ "," ++ defaultCountry, defaultFormat⟩,
               Call.GetPoints ⟨place.Lat, place.Lon⟩,
               Call.GetForecast points.Properties.Forecast,
               Call.cacheSet city (some forecast)] ∧
      (∀ k v, Call.cacheSet k v ∈ added → k = city ∧ v = some forecast) ∧
      added.count (Call.cacheSet city (some forecast)) = 1 ∧
      h.cityIteration city fs s
        = (Flow.next (fs ++ [some forecast]),
           ⟨h.cache_Set city (some forecast) w5, s.calls ++ added⟩) ∧
      h.GetForecast req w
        = h.cityLoop after (fs ++ [some forecast])
            ⟨h.cache_Set city (some forecast) w5, s.calls ++ added⟩ ∧
      (∀ r s2, h.GetForecast req w = (.ok r, s2) → r.status = 200 →
        ∃ later, r.body = Body.weather ⟨fs ++ some forecast :: later⟩) := by
  have hit : h.cityIteration city fs s
      = (Flow.next (fs ++ [some ⟨h.cases_Title city,
            periodLoop (time.AddDays now 2) forecastResp.Properties.Periods []⟩]),
         ⟨h.cache_Set city (some ⟨h.cases_Title city,
            periodLoop (time.AddDays now 2) forecastResp.Properties.Periods []⟩) w5,
          s.calls ++ [Call.cacheGet city f0 false,
            Call.GetPlace ⟨city ++ "," ++ defaultCountry, defaultFormat⟩,
            Call.GetPoints ⟨place.Lat, place.Lon⟩,
            Call.GetForecast points.Properties.Forecast,
            Call.cacheSet city (some ⟨h.cases_Title city,
              periodLoop (time.AddDays now 2) forecastResp.Properties.Periods []⟩)]⟩) := by
    unfold GetForecastHandler.cityIteration
    simp only [hget, hplace, hpoints, hfetch, hnow, List.append_assoc, List.singleton_append]
    rfl
  have hloop := GetForecast_at_city h req w citiesStr before after city fs s hq hne hsplit
    hreach
  simp only [GetForecastHandler.cityLoop, hit] at hloop
  refine ⟨⟨h.cases_Title city,
      periodLoop (time.AddDays now 2) forecastResp.Properties.Periods []⟩, _,
    rfl, rfl, ?_, ?_, rfl, ?_, ?_, hit, hloop, ?_⟩
  · intro hnil
    simp only [hnil, periodLoop]
  · intro b later hcons hday hlate
    have hafter : time.After b.StartTime (time.AddDays now 2) = true := by
      simp only [time.After, time.AddDays, decide_eq_true_eq]
      exact hlate
    simp only [hcons, periodLoop, hday, hafter, Bool.and_self, if_true]
  · intro k v hmem
    simp only [List.mem_cons, reduceCtorEq, Call.cacheSet.injEq, List.mem_singleton,
      List.not_mem_nil, false_or, or_false] at hmem
    exact hmem
  · simp [List.count_cons]
  · intro r s2 hrun h200
    rw [hloop] at hrun
    obtain ⟨picks, -, hbody, -⟩ := cityLoop_ok_picks h after _ _ r s2 hrun h200
    exact ⟨picks.filterMap Prod.snd, by rw [hbody]; simp⟩

theorem GetForecast_fresh_city_witness :
    ∃ forecast : v1.Forecast,
      forecast.Name = "New York" ∧ forecast.Detail.length = 2 ∧
      sampleHandler.GetForecast ⟨some "new york"⟩ []
        = (.ok ⟨200, Body.weather ⟨[some forecast]⟩⟩,
           ⟨[("new york", some forecast)],
            [Call.cacheGet "new york" none false,
             Call.GetPlace ⟨"new york,USA", "json"⟩,
             Call.GetPoints ⟨"40.7", "-74.0"⟩,
             Call.GetForecast "gridpoints/OKX/33,35/forecast",
             Call.cacheSet "new york" (some forecast)]⟩) := by
  obtain ⟨forecast, added, hname, hdetail, -, -, hadded, -, -, -, hloop, -⟩ :=
    GetForecast_fresh_city sampleHandler ⟨some "new york"⟩ [] "new york" [] [] "new york" []
      ⟨[], []⟩ none [] [] [] [] [] ⟨3, "40.7", "-74.0", "new york,USA"⟩ []
      ⟨"id", ⟨"gridpoints/OKX/33,35/forecast"⟩⟩ ⟨⟨samplePeriods⟩⟩ ⟨0⟩
      rfl (by decide) rfl rfl rfl rfl rfl rfl rfl
  subst hadded
  refine ⟨forecast, ?_, ?_, ?_⟩
  · rw [hname]; rfl
  · rw [hdetail]; rfl
  · rw [hloop]; rfl

end WeatherService
